import Mathlib

/-!
# Book catalog service (week11-assignment/main.go)

A shallow embedding of the ten request handlers of `main.go` and of the
relational store they talk to, followed by the properties of the service
contract.

* `Book` is the Go struct of the same name; a Go slice is an optional list
  (`none` is the nil slice, which serialises as `null`).
* `Row`, `Schema` and `Store` describe the `books` table; every SQL statement
  a handler sends is a constructor of `Stmt` and a function on `Store`.
* A handler maps the store and the request to an `Outcome`: the statements
  sent, the responses written, and the store afterwards.
-/

namespace Bookstore

/-! ## Data model -/

/-- Instants of time (`time.Time`, and the timestamps of the store); `0` is the zero time. -/
abbrev Time := Nat

/-- A Go slice: `none` is the nil slice, `some xs` a non-nil slice. -/
abbrev Slice (α : Type) := Option (List α)

/-- Go `append(s, x)`: appending to the nil slice gives a non-nil slice. -/
def Slice.append {α : Type} (s : Slice α) (x : α) : Slice α :=
  match s with
  | none => some [x]
  | some xs => some (xs ++ [x])

/-- The guard `if s == nil { s = []T{} }` that precedes every `c.JSON(200, s)`. -/
def Slice.orEmpty {α : Type} (s : Slice α) : Slice α :=
  match s with
  | none => some []
  | some xs => some xs

/-- The struct `Book` (main.go, lines 21-44). `float64` fields are carried as rationals. -/
structure Book where
  ID : Int
  Title : String
  Author : String
  ISBN : String
  Year : Int
  Price : ℚ
  Category : String
  OriginalPrice : Option ℚ
  Discount : Int
  CoverImage : String
  Rating : ℚ
  ReviewsCount : Int
  IsNew : Bool
  Pages : Option Int
  Language : String
  Publisher : String
  Description : String
  CreatedAt : Time
  UpdatedAt : Time
  deriving DecidableEq

/-- The zero value of `Book` (`var book Book`). -/
def Book.zero : Book :=
  { ID := 0, Title := "", Author := "", ISBN := "", Year := 0, Price := 0,
    Category := "", OriginalPrice := none, Discount := 0, CoverImage := "",
    Rating := 0, ReviewsCount := 0, IsNew := false, Pages := none,
    Language := "", Publisher := "", Description := "",
    CreatedAt := 0, UpdatedAt := 0 }

/-- Modelled from the spec: the declaration of the `books` table is not in
`main.go`. A row, restricted to the columns the handlers read or write. The
required scalar fields, which INSERT supplies, and the id and timestamps,
which the store assigns, are never NULL; `category`, `discount` and `rating`
are left to the table declaration by INSERT and may be NULL. -/
structure Row where
  id : Int
  title : String
  author : String
  isbn : String
  year : Int
  price : ℚ
  category : Option String
  discount : Option Int
  rating : Option ℚ
  created_at : Time
  updated_at : Time
  deriving DecidableEq

/-- The part of the table declaration the handlers depend on. The declaration
is not in `main.go`, so it is a parameter of the store: the defaults of the
columns INSERT leaves out, the constraints a written row must satisfy (given
the other rows), and whether an UPDATE refreshes `updated_at`. -/
structure Schema where
  categoryDefault : Option String
  discountDefault : Option Int
  ratingDefault : Option ℚ
  admits : List Row → Row → Bool
  refreshOnUpdate : Bool

/-- The state of the relational store: the rows of `books` in heap order, the
next value of the id sequence, and the store clock. -/
structure Store where
  schema : Schema
  rows : List Row
  nextId : Int
  clock : Time

/-- Primary-key uniqueness, the invariant the store maintains. -/
def Store.WF (st : Store) : Prop := (st.rows.map Row.id).Nodup

instance (st : Store) : Decidable st.WF := by unfold Store.WF; infer_instance

/-! ## The store: input conversion, pattern matching, ordering -/

/-- The characters the store skips around an integer literal. -/
def isSpace (c : Char) : Bool :=
  c = ' ' || c = '\t' || c = '\n' || c = '\r' || c = Char.ofNat 11 || c = Char.ofNat 12

/-- The value of a run of decimal digits, `none` if another character occurs. -/
def digitsValue : List Char → Nat → Option Nat
  | [], acc => some acc
  | c :: cs, acc => if c.isDigit then digitsValue cs (acc * 10 + (c.toNat - 48)) else none

/-- Modelled from the spec: `id` is a store-assigned integer; the table
declaration is not in `main.go`. The handlers pass the path segment as text
and the store converts it to the type of the `id` column: optional blanks, an
optional sign, decimal digits, within the 32-bit range. `none` is the store's
"invalid input syntax for type integer" or "out of range" error. -/
def pgInt4In (s : String) : Option Int :=
  let cs := ((s.data.dropWhile isSpace).reverse.dropWhile isSpace).reverse
  let (neg, ds) : Bool × List Char :=
    match cs with
    | c :: rest => if c = '-' then (true, rest) else if c = '+' then (false, rest) else (false, cs)
    | [] => (false, [])
  if ds.isEmpty then none
  else
    match digitsValue ds 0 with
    | none => none
    | some n =>
      let v : Int := if neg then -(n : Int) else (n : Int)
      if -2147483648 ≤ v ∧ v ≤ 2147483647 then some v else none

/-- The store's LIKE on character lists (pattern first): `%` matches any run of
characters, `_` any one character, a backslash makes the next pattern
character literal, every other character matches itself. -/
def likeMatch : List Char → List Char → Bool
  | [], t => t.isEmpty
  | c :: p, t =>
    if c = '%' then t.tails.any (likeMatch p)
    else if c = '_' then
      match t with
      | [] => false
      | _ :: t' => likeMatch p t'
    else if c = '\\' then
      match p, t with
      | [], _ => false
      | _ :: _, [] => false
      | e :: p', d :: t' => d == e && likeMatch p' t'
    else
      match t with
      | [] => false
      | d :: t' => d == c && likeMatch p t'

/-- Case folding of the store, on the ASCII letters. -/
def fold (s : String) : List Char := s.data.map Char.toLower

/-- The operator `text ILIKE pattern`: LIKE after case folding of both sides. -/
def ilike (text pattern : String) : Bool := likeMatch (fold pattern) (fold text)

/-- The operator `column ILIKE pattern` on a nullable column: NULL is not selected. -/
def ilikeNullable (text : Option String) (pattern : String) : Bool :=
  match text with
  | none => false
  | some t => ilike t pattern

/-- The WHERE clause of the search statement:
`title ILIKE $1 OR author ILIKE $1 OR category ILIKE $1 OR isbn ILIKE $1`. -/
def Row.matchesPattern (r : Row) (pattern : String) : Bool :=
  ilike r.title pattern || ilike r.author pattern || ilikeNullable r.category pattern
    || ilike r.isbn pattern

/-- The order of `ORDER BY key DESC`: NULL sorts first, then larger keys. -/
def descOrder {α : Type} [LinearOrder α] (a b : Option α) : Prop :=
  match a, b with
  | none, _ => True
  | some _, none => False
  | some x, some y => y ≤ x

instance {α : Type} [LinearOrder α] : DecidableRel (descOrder (α := α)) := fun a b => by
  unfold descOrder
  cases a <;> cases b <;> infer_instance

/-- The rows in the order of `ORDER BY key DESC`; rows with equal keys keep their heap order. -/
def orderByDesc {α : Type} [LinearOrder α] (key : Row → Option α) (rows : List Row) : List Row :=
  rows.insertionSort (fun a b => descOrder (key a) (key b))

/-! ## The statements and their effect on the store -/

/-- The statements the handlers send, with their bind parameters. -/
inductive Stmt
  /-- The statement `SELECT id, title, author, category, isbn, year, price, created_at,
  updated_at FROM books` -/
  | selectBooks
  /-- The same statement with `WHERE category = $1` -/
  | selectBooksByCategory (category : String)
  /-- The statement `SELECT id, title, author, isbn, year, price, created_at, updated_at FROM books
  ORDER BY created_at DESC LIMIT 5` -/
  | selectNewest
  /-- The statement `SELECT id, title, author FROM books WHERE id = $1` -/
  | selectBookById (id : String)
  /-- The statement `INSERT INTO books (title, author, isbn, year, price) VALUES ($1, $2, $3, $4, $5)
  RETURNING id, created_at, updated_at` -/
  | insertBook (title author isbn : String) (year : Int) (price : ℚ)
  /-- The statement `UPDATE books SET title = $1, author = $2, isbn = $3, year = $4, price = $5
  WHERE id = $6 RETURNING ID, updated_at` -/
  | updateBook (title author isbn : String) (year : Int) (price : ℚ) (id : String)
  /-- The statement `DELETE FROM books WHERE id = $1` -/
  | deleteBook (id : String)
  /-- The statement `SELECT DISTINCT category FROM books` -/
  | selectCategories
  /-- The statement `SELECT ... FROM books WHERE title ILIKE $1 OR author ILIKE $1 OR category ILIKE $1
  OR isbn ILIKE $1` -/
  | searchBooks (pattern : String)
  /-- The statement `SELECT ..., rating FROM books ORDER BY rating DESC LIMIT 5` -/
  | selectFeatured
  /-- The statement `SELECT ..., discount, ..., rating FROM books ORDER BY discount DESC LIMIT 5` -/
  | selectDiscounted
  deriving DecidableEq

namespace Store

/-- The error text of the store for a path segment that is not an integer,
with the rejected value in double quotes. -/
def badInteger (id : String) : String :=
  "pq: invalid input syntax for type integer: \"" ++ id ++ "\""

def selectBooks (st : Store) : Except String (List Row) :=
  .ok st.rows

def selectBooksByCategory (st : Store) (category : String) : Except String (List Row) :=
  .ok (st.rows.filter fun r => r.category = some category)

def selectNewest (st : Store) : Except String (List Row) :=
  .ok ((orderByDesc (fun r => some r.created_at) st.rows).take 5)

/-- The call `QueryRow`: the first row the statement returns, `none` for `sql.ErrNoRows`. -/
def selectBookById (st : Store) (id : String) : Except String (Option Row) :=
  match pgInt4In id with
  | none => .error (badInteger id)
  | some i => .ok (st.rows.find? fun r => r.id = i)

/-- The row INSERT writes: the five bound values, the sequence value, the
clock for both timestamps, and the table defaults elsewhere. -/
def newRow (st : Store) (title author isbn : String) (year : Int) (price : ℚ) : Row :=
  { id := st.nextId, title := title, author := author, isbn := isbn, year := year,
    price := price, category := st.schema.categoryDefault,
    discount := st.schema.discountDefault, rating := st.schema.ratingDefault,
    created_at := st.clock, updated_at := st.clock }

/-- INSERT ... RETURNING id, created_at, updated_at. The sequence is consumed
even when the row is refused. -/
def insertBook (st : Store) (title author isbn : String) (year : Int) (price : ℚ) :
    Except String (Int × Time × Time) × Store :=
  let row := newRow st title author isbn year price
  if st.nextId < -2147483648 ∨ 2147483647 < st.nextId then
    (.error "pq: nextval: reached maximum value of sequence", st)
  else if st.rows.any (fun r => r.id = row.id) then
    (.error "pq: duplicate key value violates unique constraint", { st with nextId := st.nextId + 1 })
  else if st.schema.admits st.rows row then
    (.ok (row.id, row.created_at, row.updated_at),
      { st with rows := st.rows ++ [row], nextId := st.nextId + 1 })
  else
    (.error "pq: new row violates a constraint of the table", { st with nextId := st.nextId + 1 })

/-- What UPDATE makes of a matching row. -/
def updatedRow (st : Store) (title author isbn : String) (year : Int) (price : ℚ) (r : Row) : Row :=
  { r with title := title, author := author, isbn := isbn, year := year, price := price,
           updated_at := if st.schema.refreshOnUpdate then st.clock else r.updated_at }

/-- UPDATE ... WHERE id = $6 RETURNING ID, updated_at, read with `QueryRow`:
the first returned row, `none` for `sql.ErrNoRows`. -/
def updateBook (st : Store) (title author isbn : String) (year : Int) (price : ℚ) (id : String) :
    Except String (Option (Int × Time)) × Store :=
  match pgInt4In id with
  | none => (.error (badInteger id), st)
  | some i =>
    let others := st.rows.filter fun r => r.id ≠ i
    let upd := updatedRow st title author isbn year price
    if (st.rows.filter fun r => r.id = i).all (fun r => st.schema.admits others (upd r)) then
      (.ok ((st.rows.find? fun r => r.id = i).map fun r => ((upd r).id, (upd r).updated_at)),
        { st with rows := st.rows.map fun r => if r.id = i then upd r else r })
    else
      (.error "pq: new row violates a constraint of the table", st)

/-- DELETE ... WHERE id = $1, with the number of rows affected. -/
def deleteBook (st : Store) (id : String) : Except String Nat × Store :=
  match pgInt4In id with
  | none => (.error (badInteger id), st)
  | some i =>
    (.ok (st.rows.countP fun r => r.id = i), { st with rows := st.rows.filter fun r => r.id ≠ i })

/-- SELECT DISTINCT category: each value once, NULL included. -/
def selectCategories (st : Store) : Except String (List (Option String)) :=
  .ok (st.rows.map Row.category).dedup

def searchBooks (st : Store) (pattern : String) : Except String (List Row) :=
  .ok (st.rows.filter fun r => r.matchesPattern pattern)

def selectFeatured (st : Store) : Except String (List Row) :=
  .ok ((orderByDesc Row.rating st.rows).take 5)

def selectDiscounted (st : Store) : Except String (List Row) :=
  .ok ((orderByDesc Row.discount st.rows).take 5)

end Store

/-! ## Requests and responses -/

/-- The body a handler passes to `c.JSON`. -/
inductive Payload
  /-- A `gin.H` with the single key `error` -/
  | error (msg : String)
  /-- A `gin.H` with the single key `message` -/
  | message (msg : String)
  | book (b : Book)
  | books (bs : Slice Book)
  | strings (ss : Slice String)
  deriving DecidableEq

/-- A call of `c.JSON(status, body)`. -/
structure Response where
  status : Nat
  body : Payload
  deriving DecidableEq

/-- The JSON array or `null` a slice is serialised as, when that is all one needs to know. -/
def Payload.isNull : Payload → Bool
  | .books none => true
  | .strings none => true
  | _ => false

/-- What running a handler leaves behind: the statements sent to the store in
order, the responses written in order, and the store afterwards. -/
structure Outcome where
  sent : List Stmt
  written : List Response
  store : Store

/-- The call `c.Query(key)`: the empty string when the parameter is absent. -/
def query (param : Option String) : String := param.getD ""

/-- The error of `rows.Scan` for a NULL in the column with the given index and
name, read into a destination of the given Go type. -/
def scanNull (index : Nat) (column goType : String) : String :=
  "sql: Scan error on column index " ++ toString index ++ ", name \"" ++ column
    ++ "\": converting NULL to " ++ goType ++ " is unsupported"

/-- The scan of `getAllBooks` and `searchwantBook` into a fresh `Book`
(id, title, author, category, isbn, year, price, created_at, updated_at). -/
def scanListed (r : Row) : Except String Book :=
  match r.category with
  | none => .error (scanNull 3 "category" "string")
  | some category =>
    .ok { Book.zero with
      ID := r.id, Title := r.title, Author := r.author, Category := category, ISBN := r.isbn,
      Year := r.year, Price := r.price, CreatedAt := r.created_at, UpdatedAt := r.updated_at }

/-- The scan of `getNewBooks` (id, title, author, isbn, year, price, created_at, updated_at). -/
def scanNewest (r : Row) : Except String Book :=
  .ok { Book.zero with
    ID := r.id, Title := r.title, Author := r.author, ISBN := r.isbn,
    Year := r.year, Price := r.price, CreatedAt := r.created_at, UpdatedAt := r.updated_at }

/-- The scan of `recommandedBook` (the nine listed columns, then rating). -/
def scanFeatured (r : Row) : Except String Book :=
  match r.category, r.rating with
  | none, _ => .error (scanNull 3 "category" "string")
  | some _, none => .error (scanNull 9 "rating" "float64")
  | some category, some rating =>
    .ok { Book.zero with
      ID := r.id, Title := r.title, Author := r.author, Category := category, ISBN := r.isbn,
      Year := r.year, Price := r.price, CreatedAt := r.created_at, UpdatedAt := r.updated_at,
      Rating := rating }

/-- The scan of `discountedbook` (… price, discount, created_at, updated_at, rating). -/
def scanDiscounted (r : Row) : Except String Book :=
  match r.category, r.discount, r.rating with
  | none, _, _ => .error (scanNull 3 "category" "string")
  | some _, none, _ => .error (scanNull 7 "discount" "int")
  | some _, some _, none => .error (scanNull 10 "rating" "float64")
  | some category, some discount, some rating =>
    .ok { Book.zero with
      ID := r.id, Title := r.title, Author := r.author, Category := category, ISBN := r.isbn,
      Year := r.year, Price := r.price, Discount := discount,
      CreatedAt := r.created_at, UpdatedAt := r.updated_at, Rating := rating }

/-- The loop `for rows.Next() { scan; if err != nil { 500; return }; books = append(books, book) }`,
started with `var books []Book`: the first scan error, or the slice built. -/
def scanLoop (scan : Row → Except String Book) : List Row → Slice Book → Except String (Slice Book)
  | [], books => .ok books
  | r :: rows, books =>
    match scan r with
    | .error e => .error e
    | .ok book => scanLoop scan rows (books.append book)

/-- The tail shared by the listing handlers: the scan loop, the nil guard, `c.JSON(200, books)`. -/
def respondBooks (scan : Row → Except String Book) (rows : List Row) : Response :=
  match scanLoop scan rows none with
  | .error e => ⟨500, .error e⟩
  | .ok books => ⟨200, .books books.orEmpty⟩

/-! ## The handlers -/

/-- The handler `getAllBooks` (main.go, lines 99-145). -/
def getAllBooks (st : Store) (category : Option String) : Outcome :=
  let categoryQuery := query category
  if categoryQuery ≠ "" then
    match st.selectBooksByCategory categoryQuery with
    | .error e => ⟨[.selectBooksByCategory categoryQuery], [⟨500, .error e⟩], st⟩
    | .ok rows => ⟨[.selectBooksByCategory categoryQuery], [respondBooks scanListed rows], st⟩
  else
    match st.selectBooks with
    | .error e => ⟨[.selectBooks], [⟨500, .error e⟩], st⟩
    | .ok rows => ⟨[.selectBooks], [respondBooks scanListed rows], st⟩

/-- The handler `getNewBooks` (main.go, lines 157-197). -/
def getNewBooks (st : Store) : Outcome :=
  match st.selectNewest with
  | .error e => ⟨[.selectNewest], [⟨500, .error e⟩], st⟩
  | .ok rows => ⟨[.selectNewest], [respondBooks scanNewest rows], st⟩

/-- The handler `getBook` (main.go, lines 208-225): only id, title and author are scanned. -/
def getBook (st : Store) (id : String) : Outcome :=
  match st.selectBookById id with
  | .ok none => ⟨[.selectBookById id], [⟨404, .error "book not found"⟩], st⟩
  | .error e => ⟨[.selectBookById id], [⟨500, .error e⟩], st⟩
  | .ok (some r) =>
    ⟨[.selectBookById id],
      [⟨200, .book { Book.zero with ID := r.id, Title := r.title, Author := r.author }⟩], st⟩

/-- The handler `createBook` (main.go, lines 237-266). The body is what `ShouldBindJSON`
makes of it: the bound struct, or the parse error. -/
def createBook (st : Store) (body : Except String Book) : Outcome :=
  match body with
  | .error e => ⟨[], [⟨400, .error e⟩], st⟩
  | .ok newBook =>
    let stmt := Stmt.insertBook newBook.Title newBook.Author newBook.ISBN newBook.Year newBook.Price
    match st.insertBook newBook.Title newBook.Author newBook.ISBN newBook.Year newBook.Price with
    | (.error e, st') => ⟨[stmt], [⟨500, .error e⟩], st'⟩
    | (.ok (id, createdAt, updatedAt), st') =>
      ⟨[stmt],
        [⟨201, .book { newBook with ID := id, CreatedAt := createdAt, UpdatedAt := updatedAt }⟩], st'⟩

/-- The handler `updateBook` (main.go, lines 280-310). -/
def updateBook (st : Store) (id : String) (body : Except String Book) : Outcome :=
  match body with
  | .error e => ⟨[], [⟨400, .error e⟩], st⟩
  | .ok updateBook =>
    let stmt := Stmt.updateBook updateBook.Title updateBook.Author updateBook.ISBN
      updateBook.Year updateBook.Price id
    match st.updateBook updateBook.Title updateBook.Author updateBook.ISBN
      updateBook.Year updateBook.Price id with
    | (.ok none, st') => ⟨[stmt], [⟨404, .error "book not found"⟩], st'⟩
    | (.error e, st') => ⟨[stmt], [⟨500, .error e⟩], st'⟩
    | (.ok (some (ID, updatedAt)), st') =>
      ⟨[stmt], [⟨200, .book { updateBook with ID := ID, UpdatedAt := updatedAt }⟩], st'⟩

/-- The handler `deleteBook` (main.go, lines 321-342). `RowsAffected` of the driver does not fail. -/
def deleteBook (st : Store) (id : String) : Outcome :=
  match st.deleteBook id with
  | (.error e, st') => ⟨[.deleteBook id], [⟨500, .error e⟩], st'⟩
  | (.ok rowsAffected, st') =>
    if rowsAffected = 0 then
      ⟨[.deleteBook id], [⟨404, .error "book not found"⟩], st'⟩
    else
      ⟨[.deleteBook id], [⟨200, .message "book deleted successfully"⟩], st'⟩

/-- The loop of `getAllCategories`: the result of `rows.Scan(&category)` is
dropped, so a NULL leaves the fresh `var category string` empty and the empty
string is appended. -/
def scanCategories : List (Option String) → Slice String → Slice String
  | [], categories => categories
  | v :: rows, categories =>
    let category : String := match v with
      | some s => s
      | none => ""
    scanCategories rows (categories.append category)

/-- The handler `getAllCategories` (main.go, lines 344-364). -/
def getAllCategories (st : Store) : Outcome :=
  match st.selectCategories with
  | .error e => ⟨[.selectCategories], [⟨500, .error e⟩], st⟩
  | .ok rows => ⟨[.selectCategories], [⟨200, .strings (scanCategories rows none).orEmpty⟩], st⟩

/-- The handler `searchwantBook` (main.go, lines 366-405). -/
def searchwantBook (st : Store) (keywordParam : Option String) : Outcome :=
  let searchQuery := query keywordParam
  if searchQuery = "" then
    ⟨[], [⟨400, .error "keyword is required"⟩], st⟩
  else if searchQuery ≠ "" then
    let keyword := "%" ++ searchQuery ++ "%"
    match st.searchBooks keyword with
    | .error e => ⟨[.searchBooks keyword], [⟨500, .error e⟩], st⟩
    | .ok rows => ⟨[.searchBooks keyword], [respondBooks scanListed rows], st⟩
  else
    ⟨[], [], st⟩

/-- The handler `recommandedBook` (main.go, lines 407-448). -/
def recommandedBook (st : Store) : Outcome :=
  match st.selectFeatured with
  | .error e => ⟨[.selectFeatured], [⟨500, .error e⟩], st⟩
  | .ok rows => ⟨[.selectFeatured], [respondBooks scanFeatured rows], st⟩

/-- The handler `discountedbook` (main.go, lines 450-494). -/
def discountedbook (st : Store) : Outcome :=
  match st.selectDiscounted with
  | .error e => ⟨[.selectDiscounted], [⟨500, .error e⟩], st⟩
  | .ok rows => ⟨[.selectDiscounted], [respondBooks scanDiscounted rows], st⟩

/-! ## Vocabulary of the properties -/

/-- The book `getAllBooks` and `searchwantBook` show for a row: the nine listed
columns, every other field zero. -/
def Row.listed (r : Row) : Book :=
  { Book.zero with
    ID := r.id, Title := r.title, Author := r.author, Category := r.category.getD "",
    ISBN := r.isbn, Year := r.year, Price := r.price,
    CreatedAt := r.created_at, UpdatedAt := r.updated_at }

/-- The book `recommandedBook` shows for a row: the nine listed columns and rating. -/
def Row.featured (r : Row) : Book :=
  { Book.zero with
    ID := r.id, Title := r.title, Author := r.author, Category := r.category.getD "",
    ISBN := r.isbn, Year := r.year, Price := r.price,
    CreatedAt := r.created_at, UpdatedAt := r.updated_at, Rating := r.rating.getD 0 }

/-- The rows the featured statement returns: the first five by rating, descending. -/
def featuredRows (st : Store) : List Row := (orderByDesc Row.rating st.rows).take 5

/-- The rows the featured statement leaves out. -/
def leftOutRows (st : Store) : List Row := (orderByDesc Row.rating st.rows).drop 5

/-- The string `getAllCategories` appends for a value of the result set. -/
def categoryText (v : Option String) : String :=
  match v with
  | some s => s
  | none => ""

/-- A character the LIKE operator reads literally. -/
def plainChar (c : Char) : Bool := c != '%' && c != '_' && c != '\\'

/-- The keyword, compared without regard to case, is a substring of the text. -/
def containsFold (text keyword : String) : Prop := fold keyword <:+: fold text

instance (text keyword : String) : Decidable (containsFold text keyword) := by
  unfold containsFold; infer_instance

/-- The same for a nullable column: NULL contains no keyword. -/
def containsFoldNullable (text : Option String) (keyword : String) : Prop :=
  match text with
  | none => False
  | some t => containsFold t keyword

instance (text : Option String) (keyword : String) :
    Decidable (containsFoldNullable text keyword) :=
  match text with
  | none => isFalse (fun h => h)
  | some t => inferInstanceAs (Decidable (containsFold t keyword))

/-- The keyword is a substring, without regard to case, of the title, the
author, the category or the isbn of the row. -/
def Row.containsKeyword (r : Row) (keyword : String) : Prop :=
  containsFold r.title keyword ∨ containsFold r.author keyword
    ∨ containsFoldNullable r.category keyword ∨ containsFold r.isbn keyword

instance (r : Row) (keyword : String) : Decidable (r.containsKeyword keyword) := by
  unfold Row.containsKeyword; infer_instance

/-- The decimal digits of a natural number, most significant first. -/
def decimal (n : Nat) : List Char :=
  if n = 0 then ['0'] else (Nat.digits 10 n).reverse.map Nat.digitChar

/-- The decimal spelling of an id, as a client writes it in the request path. -/
def pathOf (i : Int) : String :=
  ⟨if i < 0 then '-' :: decimal i.natAbs else decimal i.natAbs⟩

/-- Two bound bodies that differ at most in the fields id, created_at and updated_at. -/
def sameWritableFields (b₁ b₂ : Book) : Prop :=
  { b₁ with ID := 0, CreatedAt := 0, UpdatedAt := 0 }
    = { b₂ with ID := 0, CreatedAt := 0, UpdatedAt := 0 }

/-- The response with the created_at of a returned book replaced. -/
def Response.withCreatedAt (resp : Response) (t : Time) : Response :=
  match resp.body with
  | .book b => ⟨resp.status, .book { b with CreatedAt := t }⟩
  | _ => resp

/-! ## Example stores and bodies -/

/-- An example store: no rows, NULL table defaults, every row admitted. -/
def emptyStore : Store :=
  { schema := { categoryDefault := none, discountDefault := some 0, ratingDefault := some 0,
                admits := fun _ _ => true, refreshOnUpdate := true },
    rows := [], nextId := 1, clock := 100 }

/-- An example row. -/
def sampleRow (id : Int) (title : String) (category : Option String) : Row :=
  { id := id, title := title, author := "A. Writer", isbn := "9780000000000", year := 2020,
    price := 10, category := category, discount := some 0, rating := some 4,
    created_at := 50, updated_at := 60 }

/-- An example store with four rows whose categories differ in case, length and nullness. -/
def categoryStore : Store :=
  { emptyStore with
    rows := [sampleRow 1 "Dune" (some "Fiction"), sampleRow 2 "Hyperion" (some "Science Fiction"),
             sampleRow 3 "Emma" (some "fiction"), sampleRow 4 "Untitled" none],
    nextId := 5 }

/-- An example row with a rating. -/
def ratedRow (id : Int) (rating : ℚ) : Row :=
  { id := id, title := "Book", author := "A. Writer", isbn := "9780000000000", year := 2020,
    price := 10, category := some "Fiction", discount := some 0, rating := some rating,
    created_at := 50, updated_at := 60 }

/-- The example of the spec: seven books rated 5, 4, 3, 2, 1, 0 and 4.5. -/
def ratedStore : Store :=
  { emptyStore with
    rows := [ratedRow 1 5, ratedRow 2 4, ratedRow 3 3, ratedRow 4 2, ratedRow 5 1, ratedRow 6 0,
             ratedRow 7 4.5],
    nextId := 8 }

/-- The example of the spec: books titled "Go in Action" and "Rust Basics". -/
def goStore : Store :=
  { emptyStore with
    rows := [{ sampleRow 1 "Go in Action" (some "Programming") with author := "William Kennedy" },
             { sampleRow 2 "Rust Basics" (some "Programming") with author := "Jane Doe" }],
    nextId := 3 }

/-- An example store: one book without a category, as INSERT leaves it under a NULL default. -/
def uncategorisedStore : Store :=
  { emptyStore with rows := [sampleRow 1 "Untitled" none], nextId := 2 }

/-- An example store: a NULL category, an empty category, and the category Fiction. -/
def blankCategoryStore : Store :=
  { emptyStore with
    rows := [sampleRow 1 "Untitled" none, sampleRow 2 "Blank" (some ""),
             sampleRow 3 "Dune" (some "Fiction")],
    nextId := 4 }

/-- An example body: the five written fields, and client-supplied values for
id, created_at and updated_at. -/
def sampleBody (createdAt : Time) : Book :=
  { Book.zero with
    ID := 99, Title := "Go in Practice", Author := "Matt Butcher", ISBN := "9781633430075",
    Year := 2016, Price := 35, CreatedAt := createdAt, UpdatedAt := 7 }

/-! ## The scan loop -/

theorem scanLoop_some (scan : Row → Except String Book) (f : Row → Book) :
    ∀ (rows : List Row) (bs : List Book), (∀ r ∈ rows, scan r = .ok (f r)) →
      scanLoop scan rows (some bs) = .ok (some (bs ++ rows.map f))
  | [], bs, _ => by simp [scanLoop]
  | r :: rows, bs, h => by
    have hr : scan r = .ok (f r) := h r (List.mem_cons_self _ _)
    have ht : ∀ x ∈ rows, scan x = .ok (f x) := fun x hx => h x (List.mem_cons_of_mem _ hx)
    simp [scanLoop, hr, Slice.append, scanLoop_some scan f rows (bs ++ [f r]) ht]

/-- When every row scans, the listing handlers answer 200 with one book per
row, in the order of the rows, in a non-nil slice. -/
theorem respondBooks_ok (scan : Row → Except String Book) (f : Row → Book) (rows : List Row)
    (h : ∀ r ∈ rows, scan r = .ok (f r)) :
    respondBooks scan rows = ⟨200, .books (some (rows.map f))⟩ := by
  cases rows with
  | nil => simp [respondBooks, scanLoop, Slice.orEmpty]
  | cons r rows =>
    have hr : scan r = .ok (f r) := h r (List.mem_cons_self _ _)
    have ht : ∀ x ∈ rows, scan x = .ok (f x) := fun x hx => h x (List.mem_cons_of_mem _ hx)
    simp [respondBooks, scanLoop, hr, Slice.append, scanLoop_some scan f rows [f r] ht,
      Slice.orEmpty]

theorem scanLoop_error (scan : Row → Except String Book) :
    ∀ (rows : List Row) (acc : Slice Book), (∃ r ∈ rows, ∃ e, scan r = .error e) →
      ∃ e, scanLoop scan rows acc = .error e
  | [], _, h => by simp at h
  | r :: rows, acc, h => by
    cases hr : scan r with
    | error e => exact ⟨e, by simp [scanLoop, hr]⟩
    | ok b =>
      have ht : ∃ x ∈ rows, ∃ e, scan x = .error e := by
        obtain ⟨x, hx, e, he⟩ := h
        rcases List.mem_cons.1 hx with rfl | hx
        · rw [hr] at he; cases he
        · exact ⟨x, hx, e, he⟩
      obtain ⟨e, he⟩ := scanLoop_error scan rows (acc.append b) ht
      exact ⟨e, by simp [scanLoop, hr, he]⟩

/-- When some row does not scan, the listing handlers answer 500. -/
theorem respondBooks_error (scan : Row → Except String Book) (rows : List Row)
    (h : ∃ r ∈ rows, ∃ e, scan r = .error e) :
    ∃ e, respondBooks scan rows = ⟨500, .error e⟩ := by
  obtain ⟨e, he⟩ := scanLoop_error scan rows none h
  exact ⟨e, by simp [respondBooks, he]⟩

/-- The listing handlers answer 200 exactly when every row scans. -/
theorem respondBooks_status (scan : Row → Except String Book) (rows : List Row) :
    (respondBooks scan rows).status = 200 ↔ ∀ r ∈ rows, ∃ b, scan r = .ok b := by
  constructor
  · intro h r hr
    cases hs : scan r with
    | ok b => exact ⟨b, rfl⟩
    | error e =>
      obtain ⟨e', he'⟩ := respondBooks_error scan rows ⟨r, hr, e, hs⟩
      rw [he'] at h
      cases h
  · intro h
    have h' : ∀ r ∈ rows, scan r = .ok ((fun r => ((scan r).toOption).getD Book.zero) r) := by
      intro r hr
      obtain ⟨b, hb⟩ := h r hr
      simp [hb, Except.toOption]
    rw [respondBooks_ok scan _ rows h']

/-! ## Empty state (C10) and the keyword guard (C9) -/

/-- C10. With zero rows in the store, getAllBooks (with any category
parameter, or none), getAllCategories, getNewBooks, recommandedBook and
discountedbook each write exactly one response, with status 200 and an empty
non-nil sequence as body (serialised `[]`, not `null`). -/
theorem empty_state_consistency (st : Store) (h : st.rows = []) (category : Option String) :
    (getAllBooks st category).written = [⟨200, .books (some [])⟩]
    ∧ (getAllCategories st).written = [⟨200, .strings (some [])⟩]
    ∧ (getNewBooks st).written = [⟨200, .books (some [])⟩]
    ∧ (recommandedBook st).written = [⟨200, .books (some [])⟩]
    ∧ (discountedbook st).written = [⟨200, .books (some [])⟩]
    ∧ (Payload.books (some [])).isNull = false ∧ (Payload.strings (some [])).isNull = false := by
  refine ⟨?_, ?_, ?_, ?_, ?_, rfl, rfl⟩
  · unfold getAllBooks
    by_cases hc : query category = ""
    · simp [hc, Store.selectBooks, h, respondBooks, scanLoop, Slice.orEmpty]
    · simp [hc, Store.selectBooksByCategory, h, respondBooks, scanLoop, Slice.orEmpty]
  · simp [getAllCategories, Store.selectCategories, h, scanCategories, Slice.orEmpty]
  · simp [getNewBooks, Store.selectNewest, orderByDesc, h, respondBooks, scanLoop, Slice.orEmpty]
  · simp [recommandedBook, Store.selectFeatured, orderByDesc, h, respondBooks, scanLoop,
      Slice.orEmpty]
  · simp [discountedbook, Store.selectDiscounted, orderByDesc, h, respondBooks, scanLoop,
      Slice.orEmpty]

/-- The five listings at the example store without rows. -/
theorem empty_state_consistency_witness :
    emptyStore.rows = []
    ∧ (getAllBooks emptyStore (some "Fiction")).written = [⟨200, .books (some [])⟩]
    ∧ (getAllCategories emptyStore).written = [⟨200, .strings (some [])⟩]
    ∧ (getNewBooks emptyStore).written = [⟨200, .books (some [])⟩]
    ∧ (recommandedBook emptyStore).written = [⟨200, .books (some [])⟩]
    ∧ (discountedbook emptyStore).written = [⟨200, .books (some [])⟩]
    ∧ (Payload.books (some [])).isNull = false ∧ (Payload.strings (some [])).isNull = false :=
  ⟨rfl, empty_state_consistency emptyStore rfl (some "Fiction")⟩

/-- C9. searchwantBook with the keyword parameter missing or empty writes
exactly one response, 400 with the error "keyword is required", sends no
statement and leaves the store as it was; with a non-empty keyword it sends
one statement and writes exactly one response, whose status is 200 or 500,
never 400. -/
theorem searchwantBook_keyword_guard (st : Store) (keywordParam : Option String) :
    (query keywordParam = "" →
      (searchwantBook st keywordParam).written = [⟨400, .error "keyword is required"⟩]
      ∧ (searchwantBook st keywordParam).sent = []
      ∧ (searchwantBook st keywordParam).store = st)
    ∧ (query keywordParam ≠ "" →
      (searchwantBook st keywordParam).sent = [.searchBooks ("%" ++ query keywordParam ++ "%")]
      ∧ ∃ r, (searchwantBook st keywordParam).written = [r]
        ∧ (r.status = 200 ∨ r.status = 500) ∧ r.status ≠ 400) := by
  constructor
  · intro h
    simp [searchwantBook, h]
  · intro h
    simp only [searchwantBook, h, if_false, ne_eq, not_false_eq_true, if_true, Store.searchBooks]
    refine ⟨trivial, _, rfl, ?_⟩
    generalize List.filter _ st.rows = rows
    by_cases hs : ∀ r ∈ rows, ∃ b, scanListed r = .ok b
    · have := (respondBooks_status scanListed rows).2 hs
      simp [this]
    · have hs' : ∃ r ∈ rows, ∃ e, scanListed r = .error e := by
        by_contra hcon
        apply hs
        intro r hr
        cases hsr : scanListed r with
        | ok b => exact ⟨b, rfl⟩
        | error e => exact absurd ⟨r, hr, e, hsr⟩ hcon
      obtain ⟨e, he⟩ := respondBooks_error scanListed rows hs'
      simp [he]

/-- The keyword guard at the example store without rows: no keyword, and the keyword go. -/
theorem searchwantBook_keyword_guard_witness :
    (query none = ""
      ∧ (searchwantBook emptyStore none).written = [⟨400, .error "keyword is required"⟩]
      ∧ (searchwantBook emptyStore none).sent = []
      ∧ (searchwantBook emptyStore none).store = emptyStore)
    ∧ (query (some "go") ≠ ""
      ∧ (searchwantBook emptyStore (some "go")).sent = [.searchBooks ("%" ++ query (some "go") ++ "%")]
      ∧ ∃ r, (searchwantBook emptyStore (some "go")).written = [r]
        ∧ (r.status = 200 ∨ r.status = 500) ∧ r.status ≠ 400) :=
  ⟨⟨rfl, (searchwantBook_keyword_guard emptyStore none).1 rfl⟩,
    ⟨by decide, (searchwantBook_keyword_guard emptyStore (some "go")).2 (by decide)⟩⟩

/-! ## Listing and the category filter (C6) -/

theorem scanListed_of_category {r : Row} (h : r.category ≠ none) :
    scanListed r = .ok r.listed := by
  cases hc : r.category with
  | none => exact absurd hc h
  | some c => simp [scanListed, Row.listed, hc]

theorem category_of_scanListed {r : Row} {b : Book} (h : scanListed r = .ok b) :
    r.category ≠ none := by
  intro hc
  simp [scanListed, hc] at h

/-- The nine-column listing answers 200, with the listed rows in order, when no row has a NULL category. -/
theorem respondBooks_listed (rows : List Row) (h : ∀ r ∈ rows, r.category ≠ none) :
    respondBooks scanListed rows = ⟨200, .books (some (rows.map Row.listed))⟩ :=
  respondBooks_ok scanListed Row.listed rows fun r hr => scanListed_of_category (h r hr)

/-- The nine-column listing answers 200 only when no row has a NULL category. -/
theorem category_of_respondBooks_listed (rows : List Row)
    (h : (respondBooks scanListed rows).status = 200) : ∀ r ∈ rows, r.category ≠ none := by
  intro r hr
  obtain ⟨b, hb⟩ := (respondBooks_status scanListed rows).1 h r hr
  exact category_of_scanListed hb

/-- C6. getAllBooks with a non-empty category X sends the filtered statement
and answers 200 with exactly the rows whose category is X (equality of
strings; a NULL category is not X), in store order. With the category absent
or empty it sends the unfiltered statement; its response is 200 with every
row of the store whenever no row has a NULL category, and whenever it is 200
its body is every row of the store. -/
theorem getAllBooks_category_filter (st : Store) (category : Option String) :
    (query category ≠ "" →
      (getAllBooks st category).sent = [.selectBooksByCategory (query category)]
      ∧ (getAllBooks st category).written =
          [⟨200, .books (some ((st.rows.filter fun r => r.category = some (query category)).map
            Row.listed))⟩])
    ∧ (query category = "" →
      (getAllBooks st category).sent = [.selectBooks]
      ∧ ((∀ r ∈ st.rows, r.category ≠ none) →
          (getAllBooks st category).written = [⟨200, .books (some (st.rows.map Row.listed))⟩])
      ∧ (∀ resp ∈ (getAllBooks st category).written, resp.status = 200 →
          resp.body = .books (some (st.rows.map Row.listed)))) := by
  constructor
  · intro hc
    have hrows : ∀ r ∈ st.rows.filter (fun r => r.category = some (query category)),
        r.category ≠ none := by
      intro r hr
      have := (List.mem_filter.1 hr).2
      simp at this
      simp [this]
    simp [getAllBooks, hc, Store.selectBooksByCategory, respondBooks_listed _ hrows]
  · intro hc
    refine ⟨by simp [getAllBooks, hc, Store.selectBooks], ?_, ?_⟩
    · intro hrows
      simp [getAllBooks, hc, Store.selectBooks, respondBooks_listed _ hrows]
    · intro resp hresp hstatus
      simp only [getAllBooks, hc, ne_eq, not_true_eq_false, if_false, Store.selectBooks,
        List.mem_singleton] at hresp
      subst hresp
      rw [respondBooks_listed _ (category_of_respondBooks_listed _ hstatus)]

/-- The filter at the example store: only the row whose category is Fiction, not the
rows with Science Fiction or fiction; and the whole table when no category is asked for. -/
theorem getAllBooks_category_filter_witness :
    (query (some "Fiction") ≠ ""
      ∧ (getAllBooks categoryStore (some "Fiction")).sent = [.selectBooksByCategory "Fiction"]
      ∧ (getAllBooks categoryStore (some "Fiction")).written =
          [⟨200, .books (some [(sampleRow 1 "Dune" (some "Fiction")).listed])⟩])
    ∧ (query none = ""
      ∧ (∀ r ∈ (categoryStore.rows.take 3), r.category ≠ none)
      ∧ (getAllBooks { categoryStore with rows := categoryStore.rows.take 3 } none).written =
          [⟨200, .books (some ((categoryStore.rows.take 3).map Row.listed))⟩]) :=
  ⟨⟨by decide, (getAllBooks_category_filter categoryStore (some "Fiction")).1 (by decide)⟩,
    ⟨rfl, by decide,
      ((getAllBooks_category_filter { categoryStore with rows := categoryStore.rows.take 3 }
        none).2 rfl).2.1 (by decide)⟩⟩

/-! ## ORDER BY ... DESC LIMIT 5 (C7) -/

theorem descOrder_total {α : Type} [LinearOrder α] (a b : Option α) :
    descOrder a b ∨ descOrder b a := by
  cases a <;> cases b <;> simp [descOrder]
  exact le_total _ _

theorem descOrder_trans {α : Type} [LinearOrder α] {a b c : Option α}
    (hab : descOrder a b) (hbc : descOrder b c) : descOrder a c := by
  cases a <;> cases b <;> cases c <;> simp_all [descOrder]
  exact le_trans hbc hab

/-- The result of `orderByDesc` is sorted by the order of ORDER BY ... DESC. -/
theorem sorted_orderByDesc {α : Type} [LinearOrder α] (key : Row → Option α) (rows : List Row) :
    (orderByDesc key rows).Sorted (fun a b => descOrder (key a) (key b)) := by
  haveI : IsTotal Row (fun a b => descOrder (key a) (key b)) :=
    ⟨fun a b => descOrder_total (key a) (key b)⟩
  haveI : IsTrans Row (fun a b => descOrder (key a) (key b)) :=
    ⟨fun _ _ _ hab hbc => descOrder_trans hab hbc⟩
  exact List.sorted_insertionSort _ rows

/-- The result of `orderByDesc` holds the same rows, each as often. -/
theorem perm_orderByDesc {α : Type} [LinearOrder α] (key : Row → Option α) (rows : List Row) :
    (orderByDesc key rows).Perm rows :=
  List.perm_insertionSort _ rows

theorem scanFeatured_of_columns {r : Row} (hc : r.category ≠ none) (hr : r.rating ≠ none) :
    scanFeatured r = .ok r.featured := by
  cases hc' : r.category with
  | none => exact absurd hc' hc
  | some c =>
    cases hr' : r.rating with
    | none => exact absurd hr' hr
    | some x => simp [scanFeatured, Row.featured, hc', hr']

theorem columns_of_scanFeatured {r : Row} {b : Book} (h : scanFeatured r = .ok b) :
    r.category ≠ none ∧ r.rating ≠ none := by
  cases hc : r.category with
  | none => simp [scanFeatured, hc] at h
  | some c =>
    cases hr : r.rating with
    | none => simp [scanFeatured, hc, hr] at h
    | some x => simp

theorem featuredRows_ratedStore :
    featuredRows ratedStore
      = [ratedRow 1 5, ratedRow 7 4.5, ratedRow 2 4, ratedRow 3 3, ratedRow 4 2] := by
  simp [featuredRows, ratedStore, emptyStore, orderByDesc, List.insertionSort, List.orderedInsert,
    descOrder, ratedRow]
  norm_num

/-- C7. recommandedBook sends the featured statement. The rows it returns and
the rows it leaves out make up the store, and it returns min(5, n) of the n
rows. It answers 200 with one book per returned row when those rows have no
NULL category or rating; and whenever it answers 200, the body is those
books, their ratings are in descending order, and every row left out has a
rating that is at most the rating of every book returned. -/
theorem recommandedBook_top5 (st : Store) :
    (recommandedBook st).sent = [.selectFeatured]
    ∧ (featuredRows st ++ leftOutRows st).Perm st.rows
    ∧ (featuredRows st).length = min 5 st.rows.length
    ∧ ((∀ r ∈ featuredRows st, r.category ≠ none ∧ r.rating ≠ none) →
        (recommandedBook st).written = [⟨200, .books (some ((featuredRows st).map Row.featured))⟩])
    ∧ (∀ resp ∈ (recommandedBook st).written, resp.status = 200 →
        resp.body = .books (some ((featuredRows st).map Row.featured))
        ∧ ((featuredRows st).map Row.featured).length = min 5 st.rows.length
        ∧ ((featuredRows st).map Row.featured).Pairwise (fun a b => b.Rating ≤ a.Rating)
        ∧ ∀ r ∈ leftOutRows st, ∀ b ∈ (featuredRows st).map Row.featured,
            ∃ x, r.rating = some x ∧ x ≤ b.Rating) := by
  have hlen : (featuredRows st).length = min 5 st.rows.length := by
    simp [featuredRows, orderByDesc, List.length_take]
  refine ⟨by simp [recommandedBook, Store.selectFeatured], ?_, hlen, ?_, ?_⟩
  · unfold featuredRows leftOutRows
    rw [List.take_append_drop]
    exact perm_orderByDesc _ _
  · intro h
    have := respondBooks_ok scanFeatured Row.featured (featuredRows st)
      fun r hr => scanFeatured_of_columns (h r hr).1 (h r hr).2
    simpa [recommandedBook, Store.selectFeatured, featuredRows] using this
  · intro resp hresp hstatus
    have hresp' : resp = respondBooks scanFeatured (featuredRows st) := by
      simpa [recommandedBook, Store.selectFeatured, featuredRows] using hresp
    subst hresp'
    have hcols : ∀ r ∈ featuredRows st, r.category ≠ none ∧ r.rating ≠ none := by
      intro r hr
      obtain ⟨b, hb⟩ := (respondBooks_status scanFeatured _).1 hstatus r hr
      exact columns_of_scanFeatured hb
    have hok := respondBooks_ok scanFeatured Row.featured (featuredRows st)
      fun r hr => scanFeatured_of_columns (hcols r hr).1 (hcols r hr).2
    have hsorted := sorted_orderByDesc Row.rating st.rows
    refine ⟨by rw [hok], by simpa using hlen, ?_, ?_⟩
    · rw [List.pairwise_map]
      have htake : (featuredRows st).Pairwise (fun a b => descOrder a.rating b.rating) :=
        List.Pairwise.sublist (List.take_sublist _ _) hsorted
      refine List.Pairwise.imp_of_mem ?_ htake
      intro a b ha hb hab
      obtain ⟨x, hx⟩ := Option.ne_none_iff_exists'.1 (hcols a ha).2
      obtain ⟨y, hy⟩ := Option.ne_none_iff_exists'.1 (hcols b hb).2
      simpa [Row.featured, hx, hy, descOrder] using hab
    · intro r hr b hb
      obtain ⟨t, ht, rfl⟩ := List.mem_map.1 hb
      have hrel : descOrder t.rating r.rating :=
        List.Sorted.rel_of_mem_take_of_mem_drop hsorted ht hr
      obtain ⟨y, hy⟩ := Option.ne_none_iff_exists'.1 (hcols t ht).2
      cases hx : r.rating with
      | none => simp [hy, hx, descOrder] at hrel
      | some x => exact ⟨x, rfl, by simpa [Row.featured, hy, hx, descOrder] using hrel⟩

/-- The example of the spec: of seven books rated 5, 4, 3, 2, 1, 0 and 4.5 the response
holds five, rated 5, 4.5, 4, 3 and 2. -/
theorem recommandedBook_top5_witness :
    (∀ r ∈ featuredRows ratedStore, r.category ≠ none ∧ r.rating ≠ none)
    ∧ (recommandedBook ratedStore).written
        = [⟨200, .books (some ((featuredRows ratedStore).map Row.featured))⟩]
    ∧ ((featuredRows ratedStore).map Row.featured).map Book.Rating = [5, 4.5, 4, 3, 2]
    ∧ ((featuredRows ratedStore).map Row.featured).length = min 5 7 := by
  have hcols : ∀ r ∈ featuredRows ratedStore, r.category ≠ none ∧ r.rating ≠ none := by
    rw [featuredRows_ratedStore]
    simp [ratedRow]
  have hwritten := (recommandedBook_top5 ratedStore).2.2.2.1 hcols
  have h200 := (recommandedBook_top5 ratedStore).2.2.2.2 _
    (by rw [hwritten]; exact List.mem_singleton_self _) rfl
  refine ⟨hcols, hwritten, ?_, h200.2.1⟩
  rw [featuredRows_ratedStore]
  simp [Row.featured, ratedRow]

/-! ## Search (C1) -/

theorem plainChar_toLower {c : Char} (h : plainChar c = true) : plainChar c.toLower = true := by
  unfold Char.toLower
  by_cases hr : c.toNat ≥ 65 ∧ c.toNat ≤ 90
  · simp only [hr, and_self, if_true]
    obtain ⟨h1, h2⟩ := hr
    generalize c.toNat = n at *
    interval_cases n <;> decide
  · simp only [hr, if_false]; exact h

theorem likeMatch_nil (t : List Char) : likeMatch [] t = t.isEmpty := rfl

theorem likeMatch_cons (c : Char) (p t : List Char) :
    likeMatch (c :: p) t =
      if c = '%' then t.tails.any (likeMatch p)
      else if c = '_' then
        match t with
        | [] => false
        | _ :: t' => likeMatch p t'
      else if c = '\\' then
        match p, t with
        | [], _ => false
        | _ :: _, [] => false
        | e :: p', d :: t' => d == e && likeMatch p' t'
      else
        match t with
        | [] => false
        | d :: t' => d == c && likeMatch p t' := by
  cases p <;> cases t <;> rfl

theorem likeMatch_percent (p t : List Char) :
    likeMatch ('%' :: p) t = t.tails.any (likeMatch p) := by
  rw [likeMatch_cons]; rfl

theorem likeMatch_plain_nil {c : Char} (h : plainChar c = true) (p : List Char) :
    likeMatch (c :: p) [] = false := by
  simp only [plainChar, Bool.and_eq_true, bne_iff_ne, ne_eq] at h
  obtain ⟨⟨h1, h2⟩, h3⟩ := h
  rw [likeMatch_cons]
  simp only [h1, h2, h3, if_false]

theorem likeMatch_plain_cons {c : Char} (h : plainChar c = true) (p : List Char) (d : Char)
    (t : List Char) : likeMatch (c :: p) (d :: t) = (d == c && likeMatch p t) := by
  simp only [plainChar, Bool.and_eq_true, bne_iff_ne, ne_eq] at h
  obtain ⟨⟨h1, h2⟩, h3⟩ := h
  rw [likeMatch_cons]
  simp only [h1, h2, h3, if_false]

theorem likeMatch_percent_nil (t : List Char) : likeMatch ['%'] t = true := by
  rw [likeMatch_percent, List.any_eq_true]
  exact ⟨[], by simp, by rw [likeMatch_nil]; rfl⟩

/-- A pattern of literal characters followed by `%` matches the texts that start with them. -/
theorem likeMatch_plain_then_percent :
    ∀ (p t : List Char), (∀ c ∈ p, plainChar c = true) →
      (likeMatch (p ++ ['%']) t = true ↔ p <+: t)
  | [], t, _ => by simp [likeMatch_percent_nil]
  | c :: p, t, h => by
    have hc : plainChar c = true := h c (List.mem_cons_self _ _)
    have hp : ∀ x ∈ p, plainChar x = true := fun x hx => h x (List.mem_cons_of_mem _ hx)
    cases t with
    | nil => simp [likeMatch_plain_nil hc]
    | cons d t =>
      rw [List.cons_append, likeMatch_plain_cons hc, Bool.and_eq_true, beq_iff_eq,
        likeMatch_plain_then_percent p t hp, List.cons_prefix_cons]
      constructor
      · rintro ⟨rfl, h'⟩; exact ⟨rfl, h'⟩
      · rintro ⟨rfl, h'⟩; exact ⟨rfl, h'⟩

/-- A pattern of literal characters between two `%` matches the texts that contain them. -/
theorem likeMatch_percent_plain_percent (p t : List Char) (h : ∀ c ∈ p, plainChar c = true) :
    likeMatch ('%' :: (p ++ ['%'])) t = true ↔ p <:+: t := by
  rw [likeMatch_percent, List.any_eq_true, List.infix_iff_prefix_suffix]
  constructor
  · rintro ⟨s, hs, hm⟩
    exact ⟨s, (likeMatch_plain_then_percent p s h).1 hm, (List.mem_tails _ _).1 hs⟩
  · rintro ⟨s, hm, hs⟩
    exact ⟨s, (List.mem_tails _ _).2 hs, (likeMatch_plain_then_percent p s h).2 hm⟩

theorem fold_wrapped (K : String) : fold ("%" ++ K ++ "%") = '%' :: (fold K ++ ['%']) := by
  simp only [fold, String.data_append, List.map_append]
  rfl

/-- For a keyword of literal characters, the pattern the handler builds
matches a text exactly when the keyword is a substring of it, case aside. -/
theorem ilike_wrapped_plain (text K : String) (h : ∀ c ∈ K.data, plainChar c = true) :
    ilike text ("%" ++ K ++ "%") = true ↔ containsFold text K := by
  unfold ilike containsFold
  rw [fold_wrapped]
  apply likeMatch_percent_plain_percent
  intro c hc
  obtain ⟨d, hd, rfl⟩ := List.mem_map.1 hc
  exact plainChar_toLower (h d hd)

theorem matchesPattern_wrapped_plain (r : Row) (K : String)
    (h : ∀ c ∈ K.data, plainChar c = true) :
    r.matchesPattern ("%" ++ K ++ "%") = true ↔ r.containsKeyword K := by
  unfold Row.matchesPattern Row.containsKeyword
  simp only [Bool.or_eq_true, ilike_wrapped_plain _ K h, or_assoc]
  cases hc : r.category with
  | none => simp [ilikeNullable, containsFoldNullable]
  | some c => simp [ilikeNullable, containsFoldNullable, ilike_wrapped_plain _ K h]

/-- C1, as stated, fails: for the keyword "_" the response is 200 with both
books of the example store, and "_" is a substring of no title, author,
category or isbn of that store. -/
theorem searchwantBook_underscore_counterexample :
    (searchwantBook goStore (some "_")).written
        = [⟨200, .books (some (goStore.rows.map Row.listed))⟩]
    ∧ ∀ r ∈ goStore.rows, ¬ r.containsKeyword "_" := by
  constructor
  · rfl
  · decide

/-- C1, amended. For a non-empty keyword K, searchwantBook sends the search
statement with the pattern "%" ++ K ++ "%". The rows selected are those whose
title, author, category or isbn matches that pattern under ILIKE; the
response is 200 with exactly those rows when none of them has a NULL
category, and whenever the response is 200 its body is exactly those rows.
When K contains none of the characters `%`, `_` and backslash, the rows
selected are exactly the rows for which K, case aside, is a substring of the
title, the author, the category or the isbn. -/
theorem searchwantBook_matches (st : Store) (K : String) (hK : K ≠ "") :
    (searchwantBook st (some K)).sent = [.searchBooks ("%" ++ K ++ "%")]
    ∧ ((∀ r ∈ st.rows, r.matchesPattern ("%" ++ K ++ "%") = true → r.category ≠ none) →
        (searchwantBook st (some K)).written =
          [⟨200, .books (some ((st.rows.filter fun r => r.matchesPattern ("%" ++ K ++ "%")).map
            Row.listed))⟩])
    ∧ (∀ resp ∈ (searchwantBook st (some K)).written, resp.status = 200 →
        resp.body = .books (some ((st.rows.filter fun r =>
          r.matchesPattern ("%" ++ K ++ "%")).map Row.listed)))
    ∧ ((∀ c ∈ K.data, plainChar c = true) →
        ∀ r, r ∈ (st.rows.filter fun r => r.matchesPattern ("%" ++ K ++ "%"))
          ↔ r ∈ st.rows ∧ r.containsKeyword K) := by
  refine ⟨by simp [searchwantBook, hK, Store.searchBooks, query], ?_, ?_, ?_⟩
  · intro h
    have hrows : ∀ r ∈ st.rows.filter (fun r => r.matchesPattern ("%" ++ K ++ "%")),
        r.category ≠ none := fun r hr => h r (List.mem_filter.1 hr).1 (List.mem_filter.1 hr).2
    simp [searchwantBook, hK, Store.searchBooks, query, respondBooks_listed _ hrows]
  · intro resp hresp hstatus
    have hresp' : resp = respondBooks scanListed
        (st.rows.filter fun r => r.matchesPattern ("%" ++ K ++ "%")) := by
      simpa [searchwantBook, hK, Store.searchBooks, query] using hresp
    subst hresp'
    rw [respondBooks_listed _ (category_of_respondBooks_listed _ hstatus)]
  · intro hplain r
    rw [List.mem_filter, matchesPattern_wrapped_plain r K hplain]

/-- The example of the spec: the keyword go returns Go in Action and not Rust Basics. -/
theorem searchwantBook_matches_witness :
    "go" ≠ ""
    ∧ (searchwantBook goStore (some "go")).sent = [.searchBooks "%go%"]
    ∧ (searchwantBook goStore (some "go")).written
        = [⟨200, .books (some [({ sampleRow 1 "Go in Action" (some "Programming") with
            author := "William Kennedy" } : Row).listed])⟩]
    ∧ (∀ r, r ∈ (goStore.rows.filter fun r => r.matchesPattern "%go%")
          ↔ r ∈ goStore.rows ∧ r.containsKeyword "go") :=
  ⟨by decide, (searchwantBook_matches goStore "go" (by decide)).1,
    (searchwantBook_matches goStore "go" (by decide)).2.1 (by decide),
    (searchwantBook_matches goStore "go" (by decide)).2.2.2 (by decide)⟩

/-! ## Categories (C8) -/

theorem scanCategories_some :
    ∀ (vs : List (Option String)) (acc : List String),
      scanCategories vs (some acc) = some (acc ++ vs.map categoryText)
  | [], acc => by simp [scanCategories]
  | v :: vs, acc => by
    cases v <;> simp [scanCategories, Slice.append, scanCategories_some vs, categoryText]

/-- The body of `getAllCategories`: one string per distinct value, in a non-nil slice. -/
theorem scanCategories_orEmpty (vs : List (Option String)) :
    (scanCategories vs none).orEmpty = some (vs.map categoryText) := by
  cases vs with
  | nil => simp [scanCategories, Slice.orEmpty]
  | cons v vs =>
    cases v <;> simp [scanCategories, Slice.append, scanCategories_some, Slice.orEmpty,
      categoryText]

/-- C8 at the failing input. With a single row whose category is NULL,
getAllCategories answers 200 with the one element "", which is the category
of no row: the error of the scan is dropped. On the same store getAllBooks,
whose scan is checked, answers 500. With a NULL category beside an empty one
the 200 response holds "" twice. -/
theorem getAllCategories_keeps_null :
    (getAllCategories uncategorisedStore).written = [⟨200, .strings (some [""])⟩]
    ∧ (∀ r ∈ uncategorisedStore.rows, r.category ≠ some "")
    ∧ (getAllBooks uncategorisedStore none).written
        = [⟨500, .error (scanNull 3 "category" "string")⟩]
    ∧ (getAllCategories blankCategoryStore).written
        = [⟨200, .strings (some ["", "", "Fiction"])⟩] := by
  refine ⟨rfl, ?_, rfl, rfl⟩
  decide

/-- The listing of categories away from NULL. When no row has a NULL
category, getAllCategories answers 200 with a sequence of strings without
duplicates whose elements are exactly the category values present in the
table; the sequence is empty (and not nil) when the table has no rows. -/
theorem getAllCategories_distinct (st : Store) (h : ∀ r ∈ st.rows, r.category ≠ none) :
    ∃ cats : List String,
      (getAllCategories st).written = [⟨200, .strings (some cats)⟩]
      ∧ cats.Nodup
      ∧ (∀ c, c ∈ cats ↔ ∃ r ∈ st.rows, r.category = some c)
      ∧ (st.rows = [] → cats = []) := by
  refine ⟨((st.rows.map Row.category).dedup).map categoryText, ?_, ?_, ?_, ?_⟩
  · simp [getAllCategories, Store.selectCategories, scanCategories_orEmpty]
  · refine List.Nodup.map_on ?_ (List.nodup_dedup _)
    intro a ha b hb hab
    rw [List.mem_dedup, List.mem_map] at ha hb
    obtain ⟨ra, hra, rfl⟩ := ha
    obtain ⟨rb, hrb, rfl⟩ := hb
    obtain ⟨x, hx⟩ := Option.ne_none_iff_exists'.1 (h ra hra)
    obtain ⟨y, hy⟩ := Option.ne_none_iff_exists'.1 (h rb hrb)
    rw [hx, hy] at hab ⊢
    simpa [categoryText] using hab
  · intro c
    simp only [List.mem_map, List.mem_dedup]
    constructor
    · rintro ⟨v, ⟨r, hr, rfl⟩, hv⟩
      obtain ⟨x, hx⟩ := Option.ne_none_iff_exists'.1 (h r hr)
      rw [hx] at hv
      exact ⟨r, hr, by rw [hx]; simpa [categoryText] using hv⟩
    · rintro ⟨r, hr, hc⟩
      exact ⟨some c, ⟨r, hr, hc⟩, rfl⟩
  · intro hrows
    simp [hrows]

/-- The categories of the three example rows that have one. -/
theorem getAllCategories_distinct_witness :
    (∀ r ∈ (categoryStore.rows.take 3), r.category ≠ none)
    ∧ ∃ cats : List String,
      (getAllCategories { categoryStore with rows := categoryStore.rows.take 3 }).written
        = [⟨200, .strings (some cats)⟩]
      ∧ cats.Nodup
      ∧ (∀ c, c ∈ cats ↔ ∃ r ∈ categoryStore.rows.take 3, r.category = some c)
      ∧ (categoryStore.rows.take 3 = [] → cats = []) :=
  ⟨by decide,
    getAllCategories_distinct { categoryStore with rows := categoryStore.rows.take 3 }
      (by decide)⟩

/-! ## Path ids -/

theorem digitChar_props {d : Nat} (h : d < 10) :
    (Nat.digitChar d).isDigit = true ∧ (Nat.digitChar d).toNat - 48 = d
      ∧ isSpace (Nat.digitChar d) = false ∧ Nat.digitChar d ≠ '-' ∧ Nat.digitChar d ≠ '+' := by
  interval_cases d <;> decide

theorem digitsValue_map_digitChar :
    ∀ (ds : List Nat) (acc : Nat), (∀ d ∈ ds, d < 10) →
      digitsValue (ds.map Nat.digitChar) acc = some (ds.foldl (fun a d => a * 10 + d) acc)
  | [], acc, _ => rfl
  | d :: ds, acc, h => by
    have hd := digitChar_props (h d (List.mem_cons_self _ _))
    have ht : ∀ x ∈ ds, x < 10 := fun x hx => h x (List.mem_cons_of_mem _ hx)
    simp [digitsValue, hd.1, hd.2.1, digitsValue_map_digitChar ds _ ht]

theorem foldl_reverse_digits (ds : List Nat) :
    ds.reverse.foldl (fun a d => a * 10 + d) 0 = Nat.ofDigits 10 ds := by
  induction ds with
  | nil => rfl
  | cons d ds ih =>
    simp [List.foldl_append, ih, Nat.ofDigits_cons]
    ring

theorem digitsValue_decimal (n : Nat) : digitsValue (decimal n) 0 = some n := by
  unfold decimal
  split
  · next h => subst h; rfl
  · rw [digitsValue_map_digitChar _ _
        (fun d hd => Nat.digits_lt_base (by norm_num) (List.mem_reverse.1 hd)),
      foldl_reverse_digits, Nat.ofDigits_digits]

theorem decimal_ne_nil (n : Nat) : decimal n ≠ [] := by
  unfold decimal
  split
  · simp
  · next h => simp [Nat.digits_ne_nil_iff_ne_zero, h]

theorem decimal_chars (n : Nat) :
    ∀ c ∈ decimal n, isSpace c = false ∧ c ≠ '-' ∧ c ≠ '+' := by
  intro c hc
  unfold decimal at hc
  split at hc
  · simp at hc; subst hc; decide
  · obtain ⟨d, hd, rfl⟩ := List.mem_map.1 hc
    have := digitChar_props (Nat.digits_lt_base (by norm_num) (List.mem_reverse.1 hd))
    exact ⟨this.2.2.1, this.2.2.2⟩

theorem dropWhile_head {p : Char → Bool} :
    ∀ {l : List Char}, (∀ h : l ≠ [], p (l.head h) = false) → l.dropWhile p = l
  | [], _ => rfl
  | c :: t, h => by
    have := h (by simp)
    simp at this
    simp [List.dropWhile, this]

/-- Skipping blanks leaves a text alone that neither starts nor ends with one. -/
theorem trim_eq_self {l : List Char} (hne : l ≠ [])
    (hhead : isSpace (l.head hne) = false) (hlast : isSpace (l.getLast hne) = false) :
    ((l.dropWhile isSpace).reverse.dropWhile isSpace).reverse = l := by
  rw [dropWhile_head (fun _ => hhead)]
  rw [dropWhile_head, List.reverse_reverse]
  intro h
  rw [List.head_reverse]
  exact hlast

/-- The store reads the decimal spelling of a 32-bit id as that id. -/
theorem pgInt4In_pathOf (i : Int) (h : -2147483648 ≤ i ∧ i ≤ 2147483647) :
    pgInt4In (pathOf i) = some i := by
  have hne := decimal_ne_nil i.natAbs
  have hch := decimal_chars i.natAbs
  obtain ⟨c, t, hct⟩ := List.exists_cons_of_ne_nil hne
  have hc := hch c (by rw [hct]; exact List.mem_cons_self _ _)
  have hlast : isSpace ((decimal i.natAbs).getLast hne) = false :=
    (hch _ (List.getLast_mem hne)).1
  by_cases hi : i < 0
  · have htrim : (((pathOf i).data.dropWhile isSpace).reverse.dropWhile isSpace).reverse
        = '-' :: decimal i.natAbs := by
      have hd : (pathOf i).data = '-' :: decimal i.natAbs := by simp [pathOf, hi]
      rw [hd]
      apply trim_eq_self (by simp)
      · simp only [List.head_cons]; decide
      · rw [List.getLast_cons hne]; exact hlast
    unfold pgInt4In
    simp only [htrim, if_true]
    have hemp : (decimal i.natAbs).isEmpty = false := by
      rw [hct]; rfl
    have hneg : (-(i.natAbs : Int)) = i := by omega
    simp only [hemp, digitsValue_decimal, if_true, hneg, h.1, h.2, and_self, Bool.false_eq_true,
      if_false]
  · have hd : (pathOf i).data = decimal i.natAbs := by simp [pathOf, hi]
    have htrim : (((pathOf i).data.dropWhile isSpace).reverse.dropWhile isSpace).reverse
        = c :: t := by
      rw [hd, ← hct]
      apply trim_eq_self hne
      · simp only [hct, List.head_cons]; exact hc.1
      · exact hlast
    unfold pgInt4In
    simp only [htrim, hc.2.1, hc.2.2, if_false]
    have hemp : (c :: t).isEmpty = false := rfl
    rw [← hct] at *
    have hpos : ((i.natAbs : Nat) : Int) = i := by omega
    simp only [hemp, digitsValue_decimal, if_true, hpos, h.1, h.2, and_self, Bool.false_eq_true,
      if_false]

/-! ## Rows and their ids -/

theorem Store.with_rows_self (st : Store) : { st with rows := st.rows } = st := by
  cases st; rfl

theorem filter_ne_id_of_absent {rows : List Row} {i : Int} (h : ∀ r ∈ rows, r.id ≠ i) :
    rows.filter (fun r => r.id ≠ i) = rows := by
  rw [List.filter_eq_self]
  intro r hr
  simpa using h r hr

theorem find_id_of_absent {rows : List Row} {i : Int} (h : ∀ r ∈ rows, r.id ≠ i) :
    rows.find? (fun r => r.id = i) = none := by
  rw [List.find?_eq_none]
  intro r hr
  simpa using h r hr

theorem find_id_of_mem :
    ∀ {rows : List Row} {r : Row}, (rows.map Row.id).Nodup → r ∈ rows →
      rows.find? (fun x => x.id = r.id) = some r
  | [], _, _, h => by simp at h
  | x :: xs, r, hnd, h => by
    rw [List.map_cons, List.nodup_cons] at hnd
    by_cases hx : x = r
    · subst hx; simp [List.find?]
    · have hr : r ∈ xs := by
        rcases List.mem_cons.1 h with h | h
        · exact absurd h.symm hx
        · exact h
      have hid : x.id ≠ r.id := fun hxr => hnd.1 (hxr ▸ List.mem_map_of_mem Row.id hr)
      simp [List.find?, hid, find_id_of_mem hnd.2 hr]

theorem filter_id_of_mem :
    ∀ {rows : List Row} {r : Row}, (rows.map Row.id).Nodup → r ∈ rows →
      rows.filter (fun x => x.id = r.id) = [r]
  | [], _, _, h => by simp at h
  | x :: xs, r, hnd, h => by
    rw [List.map_cons, List.nodup_cons] at hnd
    by_cases hx : x = r
    · subst hx
      have : ∀ y ∈ xs, ¬ y.id = x.id := fun y hy hyx => hnd.1 (hyx ▸ List.mem_map_of_mem Row.id hy)
      simp only [List.filter_cons, decide_True, if_true, List.cons.injEq, true_and,
        List.filter_eq_nil_iff, decide_eq_true_eq]
      exact this
    · have hr : r ∈ xs := by
        rcases List.mem_cons.1 h with h | h
        · exact absurd h.symm hx
        · exact h
      have hid : x.id ≠ r.id := fun hxr => hnd.1 (hxr ▸ List.mem_map_of_mem Row.id hr)
      simp [List.filter_cons, hid, filter_id_of_mem hnd.2 hr]

theorem filter_ne_id_of_mem :
    ∀ {rows : List Row} {r : Row}, (rows.map Row.id).Nodup → r ∈ rows →
      rows.filter (fun x => x.id ≠ r.id) = rows.erase r
  | [], _, _, h => by simp at h
  | x :: xs, r, hnd, h => by
    rw [List.map_cons, List.nodup_cons] at hnd
    by_cases hx : x = r
    · subst hx
      have : ∀ y ∈ xs, y.id ≠ x.id := fun y hy hyx => hnd.1 (hyx ▸ List.mem_map_of_mem Row.id hy)
      rw [List.filter_cons, List.erase_cons_head, filter_ne_id_of_absent this]
      simp
    · have hr : r ∈ xs := by
        rcases List.mem_cons.1 h with h | h
        · exact absurd h.symm hx
        · exact h
      have hid : x.id ≠ r.id := fun hxr => hnd.1 (hxr ▸ List.mem_map_of_mem Row.id hr)
      rw [List.filter_cons, filter_ne_id_of_mem hnd.2 hr, List.erase_cons]
      simp [hid, hx]

/-! ## Unique ids are an invariant of the write handlers -/

/-- A store with unique ids has unique ids after createBook. -/
theorem createBook_preserves_WF (st : Store) (body : Except String Book) (h : st.WF) :
    (createBook st body).store.WF := by
  cases body with
  | error e => exact h
  | ok b =>
    simp only [createBook, Store.insertBook]
    split_ifs with h1 h2 h3
    · exact h
    · exact h
    · unfold Store.WF at h ⊢
      simp only [List.map_append, List.map_cons, List.map_nil]
      rw [List.nodup_append]
      refine ⟨h, List.nodup_singleton _, ?_⟩
      intro x hx hx'
      rw [List.mem_singleton] at hx'
      subst hx'
      obtain ⟨r, hr, hrid⟩ := List.mem_map.1 hx
      apply h2
      rw [List.any_eq_true]
      exact ⟨r, hr, by simpa using hrid⟩
    · exact h

/-- A store with unique ids has unique ids after updateBook. -/
theorem updateBook_preserves_WF (st : Store) (id : String) (body : Except String Book)
    (h : st.WF) : (updateBook st id body).store.WF := by
  cases body with
  | error e => exact h
  | ok b =>
    simp only [updateBook, Store.updateBook]
    cases pgInt4In id with
    | none => exact h
    | some i =>
      simp only []
      split_ifs
      · have hmap : (st.rows.map fun r =>
            if r.id = i then Store.updatedRow st b.Title b.Author b.ISBN b.Year b.Price r
            else r).map Row.id = st.rows.map Row.id := by
          rw [List.map_map]
          apply List.map_congr_left
          intro r _
          by_cases hr : r.id = i <;> simp [hr, Store.updatedRow]
        have hwf : ({ st with rows := st.rows.map fun r =>
            if r.id = i then Store.updatedRow st b.Title b.Author b.ISBN b.Year b.Price r
            else r } : Store).WF := by
          unfold Store.WF
          rw [hmap]
          exact h
        cases st.rows.find? (fun r => r.id = i) <;> exact hwf
      · exact h

/-- A store with unique ids has unique ids after deleteBook. -/
theorem deleteBook_preserves_WF (st : Store) (id : String) (h : st.WF) :
    (deleteBook st id).store.WF := by
  simp only [deleteBook, Store.deleteBook]
  cases pgInt4In id with
  | none => exact h
  | some i =>
    have hwf : ({ st with rows := st.rows.filter fun r => r.id ≠ i } : Store).WF :=
      List.Nodup.sublist (List.Sublist.map _ (List.filter_sublist _)) h
    simp only []
    split_ifs <;> exact hwf

/-! ## Delete (C3) -/

/-- C3, as stated, fails: for the path id "abc", which is the id of no row,
deleteBook answers 500 with the store's conversion error, not 404. -/
theorem deleteBook_text_id_counterexample :
    (∀ r ∈ goStore.rows, pgInt4In "abc" ≠ some r.id)
    ∧ (deleteBook goStore "abc").written = [⟨500, .error (Store.badInteger "abc")⟩] := by
  constructor
  · decide
  · rfl

/-- C3, amended. For a path id the store reads as the integer i, in a store
with unique ids: if a row has id i, deleteBook answers 200 with the message
"book deleted successfully", the store afterwards is the store before with
exactly that row erased, and getBook on the same path id then answers 404;
if no row has id i, deleteBook answers 404 "book not found" and the store is
unchanged. -/
theorem deleteBook_integer_id (st : Store) (hwf : st.WF) (id : String) (i : Int)
    (hid : pgInt4In id = some i) :
    (deleteBook st id).sent = [.deleteBook id]
    ∧ (∀ r ∈ st.rows, r.id = i →
        (deleteBook st id).written = [⟨200, .message "book deleted successfully"⟩]
        ∧ (deleteBook st id).store = { st with rows := st.rows.erase r }
        ∧ (getBook (deleteBook st id).store id).written = [⟨404, .error "book not found"⟩])
    ∧ ((∀ r ∈ st.rows, r.id ≠ i) →
        (deleteBook st id).written = [⟨404, .error "book not found"⟩]
        ∧ (deleteBook st id).store = st) := by
  refine ⟨?_, ?_, ?_⟩
  · simp only [deleteBook, Store.deleteBook, hid]
    split <;> rfl
  · intro r hr hri
    subst hri
    have hcount : st.rows.countP (fun x => x.id = r.id) ≠ 0 := by
      rw [Ne, List.countP_eq_zero]
      intro hall
      simpa using hall r hr
    have hstore : (deleteBook st id).store = { st with rows := st.rows.erase r } := by
      simp only [deleteBook, Store.deleteBook, hid, hcount, if_false]
      rw [filter_ne_id_of_mem hwf hr]
    refine ⟨by simp only [deleteBook, Store.deleteBook, hid, hcount, if_false], hstore, ?_⟩
    rw [hstore]
    have hgone : ∀ x ∈ st.rows.erase r, x.id ≠ r.id := by
      intro x hx
      rw [← filter_ne_id_of_mem hwf hr] at hx
      simpa using (List.mem_filter.1 hx).2
    simp only [getBook, Store.selectBookById, hid, find_id_of_absent hgone]
  · intro habsent
    have hcount : st.rows.countP (fun x => x.id = i) = 0 := by
      rw [List.countP_eq_zero]
      intro x hx
      simpa using habsent x hx
    simp only [deleteBook, Store.deleteBook, hid, hcount, if_true,
      filter_ne_id_of_absent habsent, Store.with_rows_self, and_self]

/-- Deleting the row with id 2 of the example store, and the absent id 7. -/
theorem deleteBook_integer_id_witness :
    goStore.WF ∧ pgInt4In "2" = some 2
    ∧ (deleteBook goStore "2").written = [⟨200, .message "book deleted successfully"⟩]
    ∧ (deleteBook goStore "2").store = { goStore with rows := goStore.rows.take 1 }
    ∧ (getBook (deleteBook goStore "2").store "2").written = [⟨404, .error "book not found"⟩]
    ∧ pgInt4In "7" = some 7
    ∧ (deleteBook goStore "7").written = [⟨404, .error "book not found"⟩]
    ∧ (deleteBook goStore "7").store = goStore := by
  have hpresent := (deleteBook_integer_id goStore (by decide) "2" 2 (by decide)).2.1
    ({ sampleRow 2 "Rust Basics" (some "Programming") with author := "Jane Doe" })
    (by decide) rfl
  have habsent := (deleteBook_integer_id goStore (by decide) "7" 7 (by decide)).2.2 (by decide)
  exact ⟨by decide, by decide, hpresent.1, hpresent.2.1, hpresent.2.2, by decide, habsent.1,
    habsent.2⟩

/-! ## Update (C4) -/

/-- C4, as stated, fails: for the path id "abc", which is the id of no row,
updateBook answers 500 with the store's conversion error, not 404. -/
theorem updateBook_text_id_counterexample :
    (∀ r ∈ goStore.rows, pgInt4In "abc" ≠ some r.id)
    ∧ (updateBook goStore "abc" (.ok Book.zero)).written
        = [⟨500, .error (Store.badInteger "abc")⟩] := by
  constructor
  · decide
  · rfl

/-- The outcomes of updateBook for a path id the store reads as the integer i,
in a store with unique ids: 404 when no row has id i; 200 with the one row
overwritten when the table admits the new values; 500 with the store
unchanged when it refuses them. -/
theorem updateBook_outcomes (st : Store) (hwf : st.WF) (id : String) (i : Int)
    (hid : pgInt4In id = some i) (b : Book) :
    (updateBook st id (.ok b)).sent = [.updateBook b.Title b.Author b.ISBN b.Year b.Price id]
    ∧ ((∀ r ∈ st.rows, r.id ≠ i) →
        (updateBook st id (.ok b)).written = [⟨404, .error "book not found"⟩]
        ∧ (updateBook st id (.ok b)).store = st)
    ∧ (∀ r ∈ st.rows, r.id = i →
        (st.schema.admits (st.rows.filter fun x => x.id ≠ i)
            { r with title := b.Title, author := b.Author, isbn := b.ISBN, year := b.Year,
                     price := b.Price,
                     updated_at := if st.schema.refreshOnUpdate then st.clock else r.updated_at }
            = true →
          (updateBook st id (.ok b)).written =
            [⟨200, .book { b with
              ID := r.id,
              UpdatedAt := if st.schema.refreshOnUpdate then st.clock else r.updated_at }⟩]
          ∧ (updateBook st id (.ok b)).store =
              { st with rows := st.rows.map fun x =>
                  if x.id = i then
                    { x with title := b.Title, author := b.Author, isbn := b.ISBN, year := b.Year,
                             price := b.Price,
                             updated_at :=
                               if st.schema.refreshOnUpdate then st.clock else x.updated_at }
                  else x })
        ∧ (st.schema.admits (st.rows.filter fun x => x.id ≠ i)
            { r with title := b.Title, author := b.Author, isbn := b.ISBN, year := b.Year,
                     price := b.Price,
                     updated_at := if st.schema.refreshOnUpdate then st.clock else r.updated_at }
            = false →
          (∃ e, (updateBook st id (.ok b)).written = [⟨500, .error e⟩])
          ∧ (updateBook st id (.ok b)).store = st)) := by
  refine ⟨?_, ?_, ?_⟩
  · simp only [updateBook, Store.updateBook, hid]
    split <;> rfl
  · intro habsent
    have hnone : st.rows.filter (fun x => x.id = i) = [] := by
      rw [List.filter_eq_nil_iff]
      intro x hx
      simpa using habsent x hx
    have hmap : st.rows.map
        (fun x => if x.id = i then
          Store.updatedRow st b.Title b.Author b.ISBN b.Year b.Price x else x) = st.rows := by
      conv_rhs => rw [← List.map_id st.rows]
      apply List.map_congr_left
      intro x hx
      simp [habsent x hx]
    simp only [updateBook, Store.updateBook, hid, hnone, List.all_nil, if_true,
      find_id_of_absent habsent, Option.map_none', hmap, Store.with_rows_self, and_self]
  · intro r hr hri
    subst hri
    have hone := filter_id_of_mem hwf hr
    have hfind := find_id_of_mem hwf hr
    constructor
    · intro hadm
      have hadm' : st.schema.admits (st.rows.filter fun x => x.id ≠ r.id)
          (Store.updatedRow st b.Title b.Author b.ISBN b.Year b.Price r) = true := hadm
      simp only [updateBook, Store.updateBook, hid, hone, List.all_cons, List.all_nil, hadm',
        Bool.and_self, if_true, hfind, Option.map_some']
      exact ⟨rfl, rfl⟩
    · intro hadm
      have hadm' : st.schema.admits (st.rows.filter fun x => x.id ≠ r.id)
          (Store.updatedRow st b.Title b.Author b.ISBN b.Year b.Price r) = false := hadm
      simp only [updateBook, Store.updateBook, hid, hone, List.all_cons, List.all_nil, hadm',
        Bool.and_true, Bool.false_eq_true, if_false]
      exact ⟨⟨_, rfl⟩, trivial⟩

/-- C4, amended. For a path id the store reads as the integer i, a
well-formed body and a store with unique ids, updateBook sends one UPDATE
with the five body fields and the path id. If no row has id i, it answers 404
and the store is unchanged. If the row r has id i, the store afterwards is
the store before, or differs from it only in that row, where title, author,
isbn, year and price are the body's and updated_at is what the store makes of
it (the clock when the table refreshes it), while id, created_at and the
remaining columns of the row keep their values; a 200 response is the body
with the row's id and the row's new updated_at, and comes with the
overwritten row; and the response is 200 when the table admits the new
values. -/
theorem updateBook_integer_id (st : Store) (hwf : st.WF) (id : String) (i : Int)
    (hid : pgInt4In id = some i) (b : Book) :
    (updateBook st id (.ok b)).sent = [.updateBook b.Title b.Author b.ISBN b.Year b.Price id]
    ∧ ((∀ r ∈ st.rows, r.id ≠ i) →
        (updateBook st id (.ok b)).written = [⟨404, .error "book not found"⟩]
        ∧ (updateBook st id (.ok b)).store = st)
    ∧ (∀ r ∈ st.rows, r.id = i →
        ((updateBook st id (.ok b)).store = st
          ∨ (updateBook st id (.ok b)).store =
              { st with rows := st.rows.map fun x =>
                  if x.id = i then
                    { x with title := b.Title, author := b.Author, isbn := b.ISBN, year := b.Year,
                             price := b.Price,
                             updated_at :=
                               if st.schema.refreshOnUpdate then st.clock else x.updated_at }
                  else x })
        ∧ (∀ resp ∈ (updateBook st id (.ok b)).written, resp.status = 200 →
            resp.body = .book { b with
              ID := r.id,
              UpdatedAt := if st.schema.refreshOnUpdate then st.clock else r.updated_at }
            ∧ (updateBook st id (.ok b)).store =
              { st with rows := st.rows.map fun x =>
                  if x.id = i then
                    { x with title := b.Title, author := b.Author, isbn := b.ISBN, year := b.Year,
                             price := b.Price,
                             updated_at :=
                               if st.schema.refreshOnUpdate then st.clock else x.updated_at }
                  else x })
        ∧ (st.schema.admits (st.rows.filter fun x => x.id ≠ i)
            { r with title := b.Title, author := b.Author, isbn := b.ISBN, year := b.Year,
                     price := b.Price,
                     updated_at := if st.schema.refreshOnUpdate then st.clock else r.updated_at }
            = true →
          (updateBook st id (.ok b)).written =
            [⟨200, .book { b with
              ID := r.id,
              UpdatedAt := if st.schema.refreshOnUpdate then st.clock else r.updated_at }⟩])) := by
  obtain ⟨hsent, habsent, hrow⟩ := updateBook_outcomes st hwf id i hid b
  refine ⟨hsent, habsent, ?_⟩
  intro r hr hri
  obtain ⟨hyes, hno⟩ := hrow r hr hri
  cases hadm : st.schema.admits (st.rows.filter fun x => x.id ≠ i)
      { r with title := b.Title, author := b.Author, isbn := b.ISBN, year := b.Year,
               price := b.Price,
               updated_at := if st.schema.refreshOnUpdate then st.clock else r.updated_at } with
  | true =>
    obtain ⟨hw, hs⟩ := hyes hadm
    refine ⟨Or.inr hs, ?_, fun _ => hw⟩
    intro resp hresp _
    rw [hw, List.mem_singleton] at hresp
    subst hresp
    exact ⟨rfl, hs⟩
  | false =>
    obtain ⟨⟨e, hw⟩, hs⟩ := hno hadm
    refine ⟨Or.inl hs, ?_, fun h => absurd h (by simp)⟩
    intro resp hresp hstatus
    rw [hw, List.mem_singleton] at hresp
    subst hresp
    cases hstatus

/-- Updating the row with id 1 of the example store, and the absent id 7. -/
theorem updateBook_integer_id_witness :
    goStore.WF ∧ pgInt4In "1" = some 1
    ∧ (updateBook goStore "1" (.ok (sampleBody 3))).written =
        [⟨200, .book { sampleBody 3 with ID := 1, UpdatedAt := 100 }⟩]
    ∧ (updateBook goStore "1" (.ok (sampleBody 3))).store.rows =
        [{ id := 1, title := "Go in Practice", author := "Matt Butcher", isbn := "9781633430075",
           year := 2016, price := 35, category := some "Programming", discount := some 0,
           rating := some 4, created_at := 50, updated_at := 100 },
         { sampleRow 2 "Rust Basics" (some "Programming") with author := "Jane Doe" }]
    ∧ pgInt4In "7" = some 7
    ∧ (updateBook goStore "7" (.ok (sampleBody 3))).written = [⟨404, .error "book not found"⟩]
    ∧ (updateBook goStore "7" (.ok (sampleBody 3))).store = goStore := by
  have hrow := (updateBook_integer_id goStore (by decide) "1" 1 (by decide)
    (sampleBody 3)).2.2
    ({ sampleRow 1 "Go in Action" (some "Programming") with author := "William Kennedy" })
    (by decide) rfl
  have hwritten := hrow.2.2 rfl
  have hstore := (hrow.2.1 _ (by rw [hwritten]; exact List.mem_singleton_self _) rfl).2
  have habsent := (updateBook_integer_id goStore (by decide) "7" 7 (by decide)
    (sampleBody 3)).2.1 (by decide)
  refine ⟨by decide, by decide, hwritten, ?_, by decide, habsent.1, habsent.2⟩
  rw [hstore]
  rfl

/-! ## Create, then get (C5) -/

/-- When the sequence value is a free 32-bit id and the table admits the row,
createBook answers 201 with the body, the assigned id and the store's
timestamps, and the row is appended to the table. -/
theorem createBook_created (st : Store) (b : Book)
    (hrange : -2147483648 ≤ st.nextId ∧ st.nextId ≤ 2147483647)
    (hfree : ∀ r ∈ st.rows, r.id ≠ st.nextId)
    (hadm : st.schema.admits st.rows (st.newRow b.Title b.Author b.ISBN b.Year b.Price) = true) :
    (createBook st (.ok b)).written =
        [⟨201, .book { b with ID := st.nextId, CreatedAt := st.clock, UpdatedAt := st.clock }⟩]
    ∧ (createBook st (.ok b)).store =
        { st with rows := st.rows ++ [st.newRow b.Title b.Author b.ISBN b.Year b.Price],
                  nextId := st.nextId + 1 } := by
  have h1 : ¬ (st.nextId < -2147483648 ∨ 2147483647 < st.nextId) := by omega
  have h2 : st.rows.any (fun r => r.id =
      (st.newRow b.Title b.Author b.ISBN b.Year b.Price).id) = false := by
    rw [List.any_eq_false]
    intro r hr
    simpa [Store.newRow] using hfree r hr
  simp only [createBook, Store.insertBook, h1, h2, hadm, if_false, if_true, Bool.false_eq_true]
  exact ⟨rfl, trivial⟩

/-- The three outcomes of createBook on a well-formed body: 201 exactly under
the conditions of `createBook_created`, 500 otherwise. -/
theorem createBook_created_iff (st : Store) (b created : Book)
    (h : (createBook st (.ok b)).written = [⟨201, .book created⟩]) :
    (-2147483648 ≤ st.nextId ∧ st.nextId ≤ 2147483647)
    ∧ (∀ r ∈ st.rows, r.id ≠ st.nextId)
    ∧ st.schema.admits st.rows (st.newRow b.Title b.Author b.ISBN b.Year b.Price) = true := by
  by_cases h1 : st.nextId < -2147483648 ∨ 2147483647 < st.nextId
  · simp [createBook, Store.insertBook, h1] at h
  · by_cases h2 : st.rows.any (fun r => r.id =
        (st.newRow b.Title b.Author b.ISBN b.Year b.Price).id) = true
    · simp [createBook, Store.insertBook, h1, h2] at h
    · by_cases h3 : st.schema.admits st.rows
          (st.newRow b.Title b.Author b.ISBN b.Year b.Price) = true
      · refine ⟨by omega, ?_, h3⟩
        intro r hr hid
        apply h2
        rw [List.any_eq_true]
        exact ⟨r, hr, by simpa [Store.newRow] using hid⟩
      · simp [createBook, Store.insertBook, h1, h2, h3] at h

/-- C5. If createBook on a well-formed body answers 201 with the book
`created`, then the assigned id is the sequence value, and getBook on the
decimal spelling of that id, in the store createBook leaves, answers 200 with
a book whose id is the assigned id, whose title and author are the submitted
ones, and whose every other field is zero. -/
theorem createBook_then_getBook (st : Store) (b created : Book)
    (h : (createBook st (.ok b)).written = [⟨201, .book created⟩]) :
    created.ID = st.nextId
    ∧ (getBook (createBook st (.ok b)).store (pathOf created.ID)).written =
        [⟨200, .book { Book.zero with
          ID := created.ID, Title := b.Title, Author := b.Author }⟩] := by
  obtain ⟨hrange, hfree, hadm⟩ := createBook_created_iff st b created h
  obtain ⟨hwritten, hstore⟩ := createBook_created st b hrange hfree hadm
  rw [hwritten] at h
  have hcreated : created =
      { b with ID := st.nextId, CreatedAt := st.clock, UpdatedAt := st.clock } := by
    simpa using h.symm
  have hid : created.ID = st.nextId := by rw [hcreated]
  refine ⟨hid, ?_⟩
  rw [hid, hstore]
  have hfind : (st.rows ++ [st.newRow b.Title b.Author b.ISBN b.Year b.Price]).find?
      (fun r => r.id = st.nextId)
      = some (st.newRow b.Title b.Author b.ISBN b.Year b.Price) := by
    rw [List.find?_append, find_id_of_absent hfree]
    simp [List.find?, Store.newRow]
  simp only [getBook, Store.selectBookById, pgInt4In_pathOf _ hrange, hfind]
  rfl

/-- Creating a book in the example store, whose next id is 3, and getting it back. -/
theorem createBook_then_getBook_witness :
    (createBook goStore (.ok (sampleBody 3))).written =
        [⟨201, .book { sampleBody 3 with ID := 3, CreatedAt := 100, UpdatedAt := 100 }⟩]
    ∧ (getBook (createBook goStore (.ok (sampleBody 3))).store (pathOf 3)).written =
        [⟨200, .book { Book.zero with
          ID := 3, Title := "Go in Practice", Author := "Matt Butcher" }⟩] :=
  ⟨rfl, (createBook_then_getBook goStore (sampleBody 3)
      { sampleBody 3 with ID := 3, CreatedAt := 100, UpdatedAt := 100 } rfl).2⟩

/-! ## Client-supplied id and timestamps (C2) -/

/-- createBook ignores a client-supplied id, created_at and updated_at
altogether: the statement sent, the response and the store afterwards do not
depend on them. -/
theorem createBook_ignores_client_fields (st : Store) (b₁ b₂ : Book)
    (h : sameWritableFields b₁ b₂) :
    (createBook st (.ok b₁)).sent = (createBook st (.ok b₂)).sent
    ∧ (createBook st (.ok b₁)).written = (createBook st (.ok b₂)).written
    ∧ (createBook st (.ok b₁)).store = (createBook st (.ok b₂)).store := by
  cases b₁; cases b₂
  simp only [sameWritableFields, Book.mk.injEq, true_and, and_true] at h
  obtain ⟨h1, h2, h3, h4, h5, h6, h7, h8, h9, h10, h11, h12, h13, h14, h15, h16⟩ := h
  subst_vars
  simp only [createBook, Store.insertBook, Store.newRow]
  exact ⟨trivial, trivial, trivial⟩

/-- updateBook sends the same statement and leaves the same store whatever
the client-supplied id, created_at and updated_at; its response is the same
up to the created_at of the returned book, which is the client's. -/
theorem updateBook_ignores_client_fields_but_created_at (st : Store) (id : String) (b₁ b₂ : Book)
    (h : sameWritableFields b₁ b₂) :
    (updateBook st id (.ok b₁)).sent = (updateBook st id (.ok b₂)).sent
    ∧ (updateBook st id (.ok b₁)).store = (updateBook st id (.ok b₂)).store
    ∧ (updateBook st id (.ok b₂)).written
        = (updateBook st id (.ok b₁)).written.map fun resp => resp.withCreatedAt b₂.CreatedAt := by
  cases b₁; cases b₂
  simp only [sameWritableFields, Book.mk.injEq, true_and, and_true] at h
  obtain ⟨h1, h2, h3, h4, h5, h6, h7, h8, h9, h10, h11, h12, h13, h14, h15, h16⟩ := h
  subst_vars
  simp only [updateBook, Store.updateBook]
  cases pgInt4In id with
  | none => exact ⟨rfl, rfl, rfl⟩
  | some i =>
    simp only []
    split_ifs
    · cases st.rows.find? (fun r => r.id = i) <;> exact ⟨rfl, rfl, rfl⟩
    · exact ⟨rfl, rfl, rfl⟩

/-- C2 at the failing input: two PUT bodies that differ only in created_at,
on the same store and path id, send the same statement and get different
responses, each carrying the created_at its client supplied. -/
theorem updateBook_echoes_created_at :
    sameWritableFields (sampleBody 3) (sampleBody 4)
    ∧ (updateBook goStore "1" (.ok (sampleBody 3))).sent
        = (updateBook goStore "1" (.ok (sampleBody 4))).sent
    ∧ (updateBook goStore "1" (.ok (sampleBody 3))).written
        = [⟨200, .book { sampleBody 3 with ID := 1, UpdatedAt := 100 }⟩]
    ∧ (updateBook goStore "1" (.ok (sampleBody 4))).written
        = [⟨200, .book { sampleBody 4 with ID := 1, UpdatedAt := 100 }⟩]
    ∧ (updateBook goStore "1" (.ok (sampleBody 3))).written
        ≠ (updateBook goStore "1" (.ok (sampleBody 4))).written := by
  refine ⟨rfl, rfl, rfl, rfl, ?_⟩
  intro h
  have h' : ({ sampleBody 3 with ID := 1, UpdatedAt := 100 } : Book).CreatedAt
      = ({ sampleBody 4 with ID := 1, UpdatedAt := 100 } : Book).CreatedAt :=
    congrArg (fun w => match w with
      | [⟨_, .book b⟩] => b.CreatedAt
      | _ => 0) h
  exact absurd h' (by decide)

end Bookstore
